import Mathlib

/-!
Shallow embedding of the TodoApp model layer (src/model/…) and adapter layer
(src/adapter/…): the `Task` entity, the session-state repository
(`SessionStateTaskRepository`), the business-logic service (`TodoService`)
and the external-item adapter (`TaskAdapter` / `BidirectionalTaskAdapter`).

Conventions of the embedding:
* Python strings are Lean `String`s; `str.strip()` / `str.capitalize()` /
  `int(str)` are modelled on ASCII data by `pyStrip` / `pyCapitalize` /
  `pyIntParse` below (Python additionally strips some exotic Unicode
  whitespace and accepts underscore digit separators; no code path of this
  repository depends on those).
* The Streamlit session state is the record `RepoState`.  Every repository
  method begins by installing the default values for its three keys
  (empty task list, counter 1, empty category list) when they are absent;
  we therefore model states after that lazy initialisation has happened,
  with `initState` as the state produced by it, and each mutating method
  as a pure function `RepoState → α × RepoState`.
* `None` becomes `Option.none`; a Python `**kwargs` partial update becomes
  the `TaskUpdate` record whose `none` fields are absent keys.
-/

namespace TodoApp

/-! ### Python string primitives -/

/-- Core of `str.strip()` on the character list: drop whitespace from both ends. -/
def stripChars (l : List Char) : List Char :=
  ((l.dropWhile Char.isWhitespace).reverse.dropWhile Char.isWhitespace).reverse

/-- Model of Python `str.strip()` (also covering `(x or "").strip()`,
since `""` strips to `""`). -/
def pyStrip (s : String) : String := ⟨stripChars s.data⟩

/-- Model of Python `str.capitalize()`: first character upper-cased,
all remaining characters lower-cased. -/
def pyCapitalize (s : String) : String :=
  match s.data with
  | [] => ""
  | c :: cs => ⟨c.toUpper :: cs.map Char.toLower⟩

/-- Numeric value of a decimal digit list (most significant first). -/
def digitsVal (l : List Char) : Nat :=
  l.foldl (fun a c => a * 10 + (c.toNat - 48)) 0

/-- Model of Python `int(str)`: surrounding whitespace ignored, optional
single sign, then a non-empty run of decimal digits; everything else
raises `ValueError`, modelled as `none`. -/
def pyIntParse (s : String) : Option Int :=
  match (pyStrip s).data with
  | [] => none
  | '+' :: ds =>
      if ds ≠ [] ∧ ds.all Char.isDigit then some (digitsVal ds) else none
  | '-' :: ds =>
      if ds ≠ [] ∧ ds.all Char.isDigit then some (-(digitsVal ds : Int)) else none
  | ds =>
      if ds.all Char.isDigit then some (digitsVal ds) else none

/-- Model of `external_id.split("-")[-1]`: the substring after the last `'-'`
(the whole string when it contains no `'-'`). -/
def lastDashSuffix (s : String) : String :=
  ⟨(s.data.reverse.takeWhile (fun c => c ≠ '-')).reverse⟩

/-! ### Dates (`datetime.date` payloads and the ISO strings the app produces) -/

/-- A Python `datetime.date` value. -/
structure PyDate where
  year : Nat
  month : Nat
  day : Nat
deriving DecidableEq, Repr

/-- Zero-pad a decimal string to width `w`. -/
def padZeros (w : Nat) (s : String) : String :=
  ⟨List.replicate (w - s.data.length) '0' ++ s.data⟩

/-- Model of `datetime.combine(d, datetime.min.time()).isoformat()`:
the string `YYYY-MM-DDT00:00:00`. -/
def isoOfDateMidnight (d : PyDate) : String :=
  padZeros 4 (toString d.year) ++ "-" ++ padZeros 2 (toString d.month) ++ "-" ++
    padZeros 2 (toString d.day) ++ "T00:00:00"

/-- Is this the optional time tail of an ISO string: empty, or a separator
followed by `hh:mm:ss`?  (Fractional seconds and timezone offsets the
stdlib would also accept are not modelled; no claim depends on them.) -/
def isoTimeTailOk : List Char → Bool
  | [] => true
  | sep :: h1 :: h2 :: ':' :: m1 :: m2 :: ':' :: s1 :: s2 :: [] =>
      (sep = 'T' || sep = ' ') && [h1, h2, m1, m2, s1, s2].all Char.isDigit &&
        digitsVal [h1, h2] < 24 && digitsVal [m1, m2] < 60 && digitsVal [s1, s2] < 60
  | _ => false

/-- Model of `datetime.fromisoformat(s).date()` on the ISO strings this
application produces and exchanges: a `YYYY-MM-DD` date part with an
optional time tail.  Full calendar validation (days per month, leap
years) is approximated by `day ≤ 31`; no claim depends on it. -/
def pyFromIsoDate (s : String) : Option PyDate :=
  match s.data with
  | y1 :: y2 :: y3 :: y4 :: '-' :: m1 :: m2 :: '-' :: d1 :: d2 :: rest =>
      if [y1, y2, y3, y4, m1, m2, d1, d2].all Char.isDigit ∧ isoTimeTailOk rest then
        let mo := digitsVal [m1, m2]
        let da := digitsVal [d1, d2]
        if 1 ≤ mo ∧ mo ≤ 12 ∧ 1 ≤ da ∧ da ≤ 31 then
          some ⟨digitsVal [y1, y2, y3, y4], mo, da⟩
        else none
      else none
  | _ => none

/-! ### Entities and constants (src/model/entities.py, src/model/constants.py) -/

/-- The immutable `Task` dataclass. -/
structure Task where
  id : Int
  title : String
  done : Bool
  due_date : Option PyDate
  category : Option String
  priority : Option String
deriving DecidableEq, Repr

/-- Python `PRIORITIES`: the allowed priority values (a Python `set`, modelled as
the list of its elements with membership). -/
def PRIORITIES : List String := ["Niedrig", "Mittel", "Hoch"]

/-- Python `DEFAULT_PRIORITY` (= `None`). -/
def DEFAULT_PRIORITY : Option String := none

/-- Python `MAX_CATEGORIES`. -/
def MAX_CATEGORIES : Nat := 5

/-- Python `FILTER_ALL` / `FILTER_OPEN` / `FILTER_DONE`. -/
def FILTER_ALL : String := "Alle"

def FILTER_OPEN : String := "Offen"

def FILTER_DONE : String := "Erledigt"

/-! ### Repository (src/model/repository.py) -/

/-- The Streamlit session state after lazy initialisation: the values of
`TASKS_KEY`, `NEXT_ID_KEY` and `CATEGORIES_KEY`. -/
structure RepoState where
  todos : List Task
  next_id : Int
  categories : List String
deriving DecidableEq, Repr

/-- The state `ensure_initialized` installs on a fresh session. -/
def initState : RepoState := ⟨[], 1, []⟩

namespace SessionStateTaskRepository

/-- Python `list_all`: a snapshot of the task list. -/
def list_all (s : RepoState) : List Task := s.todos

/-- Python `next_id`: return the current counter value and increment it. -/
def next_id (s : RepoState) : Int × RepoState :=
  (s.next_id, { s with next_id := s.next_id + 1 })

/-- Python `add`: append a task. -/
def add (t : Task) (s : RepoState) : RepoState :=
  { s with todos := s.todos ++ [t] }

/-- Python `delete`: keep every task whose id differs. -/
def delete (task_id : Int) (s : RepoState) : RepoState :=
  { s with todos := s.todos.filter (fun t => t.id ≠ task_id) }

end SessionStateTaskRepository

/-- The `**kwargs` of `SessionStateTaskRepository.update`: each field is
`none` when the keyword is absent, `some v` when it is passed with value
`v` (which, for the optional task attributes, may itself be `none`). -/
structure TaskUpdate where
  title : Option String := none
  done : Option Bool := none
  due_date : Option (Option PyDate) := none
  category : Option (Option String) := none
  priority : Option (Option String) := none
deriving DecidableEq, Repr

/-- Python `kwargs.get(key, old)` for every field of a task (the id is never
overridden). -/
def applyUpdate (u : TaskUpdate) (t : Task) : Task :=
  ⟨t.id, u.title.getD t.title, u.done.getD t.done, u.due_date.getD t.due_date,
    u.category.getD t.category, u.priority.getD t.priority⟩

/-- The Python empty-dict test `if updates:` on the kwargs record. -/
def TaskUpdate.isEmpty (u : TaskUpdate) : Bool :=
  u.title.isNone && u.done.isNone && u.due_date.isNone && u.category.isNone &&
    u.priority.isNone

namespace SessionStateTaskRepository

/-- Python `update`: rebuild the task list, replacing every task with the given id
by a new task carrying the overridden attributes. -/
def update (task_id : Int) (u : TaskUpdate) (s : RepoState) : RepoState :=
  { s with todos := s.todos.map (fun t => if t.id = task_id then applyUpdate u t else t) }

/-- Python `list_categories`: a snapshot of the category list. -/
def list_categories (s : RepoState) : List String := s.categories

/-- Python `add_category`: strip; fail on empty name, on a full store
(`MAX_CATEGORIES`), or on a duplicate; otherwise append. -/
def add_category (name : String) (s : RepoState) : Bool × RepoState :=
  let n := pyStrip name
  if n = "" then (false, s)
  else if MAX_CATEGORIES ≤ s.categories.length then (false, s)
  else if n ∈ s.categories then (false, s)
  else (true, { s with categories := s.categories ++ [n] })

/-- Python `rename_category`: strip both; fail when either is empty, when `old` is
absent, or when `new` is present as a different category; otherwise
replace `old` by `new` in the category list.  (The task list is not
touched here.) -/
def rename_category (old new : String) (s : RepoState) : Bool × RepoState :=
  let o := pyStrip old
  let n := pyStrip new
  if o = "" ∨ n = "" then (false, s)
  else if o ∉ s.categories then (false, s)
  else if n ∈ s.categories ∧ n ≠ o then (false, s)
  else (true, { s with categories := s.categories.map (fun c => if c = o then n else c) })

/-- Python `delete_category`: strip; fail when empty or absent; otherwise remove
the name from the category list.  (The task list is not touched here.) -/
def delete_category (name : String) (s : RepoState) : Bool × RepoState :=
  let n := pyStrip name
  if n = "" then (false, s)
  else if n ∉ s.categories then (false, s)
  else (true, { s with categories := s.categories.filter (fun c => c ≠ n) })

end SessionStateTaskRepository

/-- The value sequence of `N` consecutive `next_id()` calls, together with
the state they leave behind. -/
def nextIdSeq : Nat → RepoState → List Int × RepoState
  | 0, s => ([], s)
  | n + 1, s =>
      let r := SessionStateTaskRepository.next_id s
      let rest := nextIdSeq n r.2
      (r.1 :: rest.1, rest.2)

/-! ### Service (src/model/service.py)

The Python loops of `rename_category` / `delete_category` iterate over a
snapshot of the task list and issue one `repo.update(task.id, …)` per
matching task; that loop is the fold `cascade` below. -/

/-- The per-task category rewrite loop of the two service category
mutations: for every task `t` of the snapshot `tasks` whose category
equals `matchCat`, run `repo.update(t.id, category=newVal)`. -/
def cascade (matchCat : String) (newVal : Option String) (tasks : List Task)
    (s : RepoState) : RepoState :=
  tasks.foldl
    (fun st t =>
      if t.category = some matchCat then
        SessionStateTaskRepository.update t.id { category := some newVal } st
      else st)
    s

namespace TodoService

/-- Python `_validate_title`: strip; `None` when empty afterwards. -/
def validate_title (title : String) : Option String :=
  let t := pyStrip title
  if t = "" then none else some t

/-- Python `_validate_priority`: `None` allowed; otherwise strip, capitalize, and
require membership in `PRIORITIES`. -/
def validate_priority (priority : Option String) : Option String :=
  match priority with
  | none => none
  | some p =>
      let q := pyCapitalize (pyStrip p)
      if q ∈ PRIORITIES then some q else none

/-- Python `_validate_category`: `(category or "").strip() or None`, then `None`
unless the value is an existing category. -/
def validate_category (category : Option String) (s : RepoState) : Option String :=
  let c : Option String :=
    match category with
    | none => none
    | some x => if pyStrip x = "" then none else some (pyStrip x)
  match c with
  | none => none
  | some x => if x ∈ s.categories then some x else none

/-- Python `list_categories`: alphabetically sorted (case-insensitive) copy. -/
def list_categories (s : RepoState) : List String :=
  (SessionStateTaskRepository.list_categories s).mergeSort
    (fun a b => a.toLower ≤ b.toLower)

/-- Python `can_add_category`. -/
def can_add_category (s : RepoState) : Bool :=
  (SessionStateTaskRepository.list_categories s).length < MAX_CATEGORIES

/-- Python `add_category`: strip, reject empty, delegate. -/
def add_category (name : String) (s : RepoState) : Bool × RepoState :=
  let n := pyStrip name
  if n = "" then (false, s)
  else SessionStateTaskRepository.add_category n s

/-- Python `rename_category`: strip both, reject empties, delegate to the
repository, then rewrite every task that carried the old category. -/
def rename_category (old new : String) (s : RepoState) : Bool × RepoState :=
  let o := pyStrip old
  let n := pyStrip new
  if o = "" ∨ n = "" then (false, s)
  else
    let r := SessionStateTaskRepository.rename_category o n s
    if r.1 = false then (false, r.2)
    else if o ≠ n then
      (true, cascade o (some n) (SessionStateTaskRepository.list_all r.2) r.2)
    else (true, r.2)

/-- Python `delete_category`: strip, reject empty, delegate to the repository,
then clear the category on every task that carried it. -/
def delete_category (name : String) (s : RepoState) : Bool × RepoState :=
  let n := pyStrip name
  if n = "" then (false, s)
  else
    let r := SessionStateTaskRepository.delete_category n s
    if r.1 = false then (false, r.2)
    else (true, cascade n none (SessionStateTaskRepository.list_all r.2) r.2)

/-- Python `list_tasks`. -/
def list_tasks (s : RepoState) : List Task :=
  SessionStateTaskRepository.list_all s

/-- Python `get_filtered_tasks`. -/
def get_filtered_tasks (filter_value : String) (s : RepoState) : List Task :=
  let all_tasks := SessionStateTaskRepository.list_all s
  if filter_value = FILTER_OPEN then all_tasks.filter (fun t => !t.done)
  else if filter_value = FILTER_DONE then all_tasks.filter (fun t => t.done)
  else all_tasks

/-- Python `add_task`: reject an empty (stripped) title before touching the
repository; otherwise validate category and priority, draw an id and
append the new task. -/
def add_task (title : String) (due_date : Option PyDate) (category : Option String)
    (priority : Option String) (s : RepoState) : Bool × RepoState :=
  match validate_title title with
  | none => (false, s)
  | some vt =>
      let vc := validate_category category s
      let vp := validate_priority priority
      let r := SessionStateTaskRepository.next_id s
      (true, SessionStateTaskRepository.add ⟨r.1, vt, false, due_date, vc, vp⟩ r.2)

/-- Python `delete_task`. -/
def delete_task (task_id : Int) (s : RepoState) : RepoState :=
  SessionStateTaskRepository.delete task_id s

/-- Python `set_done`. -/
def set_done (task_id : Int) (done : Bool) (s : RepoState) : RepoState :=
  SessionStateTaskRepository.update task_id { done := some done } s

/-- Python `rename_task`. -/
def rename_task (task_id : Int) (new_title : String) (s : RepoState) : Bool × RepoState :=
  match validate_title new_title with
  | none => (false, s)
  | some vt => (true, SessionStateTaskRepository.update task_id { title := some vt } s)

/-- Python `set_due_date`. -/
def set_due_date (task_id : Int) (due_date : Option PyDate) (s : RepoState) : RepoState :=
  SessionStateTaskRepository.update task_id { due_date := some due_date } s

/-- Python `set_category`. -/
def set_category (task_id : Int) (category : Option String) (s : RepoState) : RepoState :=
  SessionStateTaskRepository.update task_id { category := some (validate_category category s) } s

/-- Python `set_priority`. -/
def set_priority (task_id : Int) (priority : Option String) (s : RepoState) : RepoState :=
  SessionStateTaskRepository.update task_id { priority := some (validate_priority priority) } s

/-- Python `update_task`: validate the title (early `False` when given but
invalid), assemble the kwargs dict, and apply it unless it is empty. -/
def update_task (task_id : Int) (title : Option String) (due_date : Option PyDate)
    (category : Option String) (priority : Option String)
    (update_due_date : Bool) (update_priority : Bool) (s : RepoState) :
    Bool × RepoState :=
  let mkU : Option String → TaskUpdate := fun ut =>
    { title := ut
      done := none
      due_date := if update_due_date then some due_date else none
      category :=
        match category with
        | none => none
        | some c => some (validate_category (some c) s)
      priority := if update_priority then some (validate_priority priority) else none }
  let app : TaskUpdate → RepoState := fun u =>
    if u.isEmpty then s else SessionStateTaskRepository.update task_id u s
  match title with
  | none => (true, app (mkU none))
  | some t =>
      match validate_title t with
      | none => (false, s)
      | some vt => (true, app (mkU (some vt)))

end TodoService

/-! ### Adapter (src/adapter/external_api.py, src/adapter/task_adapter.py)

The Python builtin `hash` on strings is seeded per process; the adapter only
uses `abs(hash(external_id))`, which we model as an explicit parameter
`hashAbs : String → Nat` of the translation functions.  The wall-clock
field `created_timestamp` of `ExternalTodoItem` is never read or written
by the adapter translation and is omitted from the embedding. -/

/-- The external data format `ExternalTodoItem`. -/
structure ExternalTodoItem where
  item_id : String
  name : String
  is_completed : Bool := false
  due : Option String := none
  urgency : Int := 3
  label : Option String := none
deriving DecidableEq, Repr

namespace TaskAdapter

/-- Python `_convert_id`: parse the substring after the last `'-'` as an integer
and add the offset; when `int(…)` raises, fall back to
`abs(hash(external_id)) % 100000 + offset`. -/
def convert_id (hashAbs : String → Nat) (id_offset : Int) (external_id : String) : Int :=
  match pyIntParse (lastDashSuffix external_id) with
  | some n => n + id_offset
  | none => ((hashAbs external_id % 100000 : Nat) : Int) + id_offset

/-- Python `_convert_due_date`: `None`/empty stays `None`; otherwise ISO parse,
with a parse failure mapped to `None`. -/
def convert_due_date (due : Option String) : Option PyDate :=
  match due with
  | none => none
  | some d => if d = "" then none else pyFromIsoDate d

/-- Python `_convert_urgency`: `URGENCY_TO_PRIORITY.get(urgency, "Mittel")`. -/
def convert_urgency (urgency : Int) : String :=
  if urgency = 1 then "Niedrig"
  else if urgency = 2 then "Niedrig"
  else if urgency = 3 then "Mittel"
  else if urgency = 4 then "Hoch"
  else if urgency = 5 then "Hoch"
  else "Mittel"

/-- Python `adapt`: translate one external item to the internal task format. -/
def adapt (hashAbs : String → Nat) (id_offset : Int) (e : ExternalTodoItem) : Task :=
  ⟨convert_id hashAbs id_offset e.item_id, e.name, e.is_completed,
    convert_due_date e.due, e.label, some (convert_urgency e.urgency)⟩

end TaskAdapter

namespace BidirectionalTaskAdapter

/-- Python `PRIORITY_TO_URGENCY.get(task.priority, 3)`. -/
def priority_to_urgency (p : Option String) : Int :=
  match p with
  | some q =>
      if q = "Niedrig" then 2
      else if q = "Mittel" then 3
      else if q = "Hoch" then 4
      else 3
  | none => 3

/-- Python `to_external`: translate an internal task to the external format,
generating the external id `EXT-<id>` when none is supplied. -/
def to_external (t : Task) (external_id : Option String) : ExternalTodoItem :=
  let ext := external_id.getD ("EXT-" ++ toString t.id)
  let due_str := t.due_date.map isoOfDateMidnight
  { item_id := ext, name := t.title, is_completed := t.done, due := due_str,
    urgency := priority_to_urgency t.priority, label := t.category }

end BidirectionalTaskAdapter

/-! ### Reachability and the referential-integrity invariant -/

/-- States reachable through the service layer from a fresh session. -/
inductive Reachable : RepoState → Prop where
  | init : Reachable initState
  | add_task (title : String) (due : Option PyDate) (category priority : Option String)
      (s : RepoState) : Reachable s →
      Reachable (TodoService.add_task title due category priority s).2
  | delete_task (task_id : Int) (s : RepoState) : Reachable s →
      Reachable (TodoService.delete_task task_id s)
  | set_done (task_id : Int) (d : Bool) (s : RepoState) : Reachable s →
      Reachable (TodoService.set_done task_id d s)
  | rename_task (task_id : Int) (t : String) (s : RepoState) : Reachable s →
      Reachable (TodoService.rename_task task_id t s).2
  | set_due_date (task_id : Int) (d : Option PyDate) (s : RepoState) : Reachable s →
      Reachable (TodoService.set_due_date task_id d s)
  | set_category (task_id : Int) (c : Option String) (s : RepoState) : Reachable s →
      Reachable (TodoService.set_category task_id c s)
  | set_priority (task_id : Int) (p : Option String) (s : RepoState) : Reachable s →
      Reachable (TodoService.set_priority task_id p s)
  | update_task (task_id : Int) (title : Option String) (due : Option PyDate)
      (category priority : Option String) (udd up : Bool) (s : RepoState) : Reachable s →
      Reachable (TodoService.update_task task_id title due category priority udd up s).2
  | add_category (name : String) (s : RepoState) : Reachable s →
      Reachable (TodoService.add_category name s).2
  | rename_category (old new : String) (s : RepoState) : Reachable s →
      Reachable (TodoService.rename_category old new s).2
  | delete_category (name : String) (s : RepoState) : Reachable s →
      Reachable (TodoService.delete_category name s).2

/-- Referential integrity: every task category that is set names an
existing category. -/
def CatInv (s : RepoState) : Prop :=
  ∀ t ∈ s.todos, ∀ c, t.category = some c → c ∈ s.categories

/-- Stored category names are non-empty and stripped. -/
def CatsWF (s : RepoState) : Prop :=
  ∀ c ∈ s.categories, pyStrip c = c ∧ c ≠ ""

/-! ### Lemmas about the string primitives -/

theorem length_dropWhile_le (p : Char → Bool) (l : List Char) :
    (l.dropWhile p).length ≤ l.length := by
  induction l with
  | nil => simp
  | cons a t ih =>
      rw [List.dropWhile_cons]
      by_cases h : p a
      · simp only [h, if_pos]
        exact Nat.le_trans ih (Nat.le_succ _)
      · simp [h]

theorem dropWhile_dropWhile (p : Char → Bool) (l : List Char) :
    (l.dropWhile p).dropWhile p = l.dropWhile p := by
  induction l with
  | nil => simp
  | cons a t ih =>
      rw [List.dropWhile_cons]
      by_cases h : p a
      · simpa [h] using ih
      · simp [List.dropWhile_cons, h]

theorem dropWhile_of_append_self (p : Char → Bool) (l₁ l₂ : List Char)
    (h : (l₁ ++ l₂).dropWhile p = l₁ ++ l₂) : l₁.dropWhile p = l₁ := by
  cases l₁ with
  | nil => simp
  | cons a t =>
      rw [List.cons_append, List.dropWhile_cons] at h
      by_cases hp : p a
      · exfalso
        rw [if_pos hp] at h
        have hlen := congrArg List.length h
        rw [List.length_cons] at hlen
        have hle := length_dropWhile_le p (t ++ l₂)
        omega
      · simp [List.dropWhile_cons, hp]

theorem stripChars_idem (l : List Char) : stripChars (stripChars l) = stripChars l := by
  unfold stripChars
  set p := Char.isWhitespace with hp
  set m := l.dropWhile p with hm
  set w := m.reverse.dropWhile p with hw
  have hsplit : m = w.reverse ++ (m.reverse.takeWhile p).reverse := by
    have := List.takeWhile_append_dropWhile p m.reverse
    calc m = m.reverse.reverse := (List.reverse_reverse m).symm
    _ = (m.reverse.takeWhile p ++ w).reverse := by rw [this]
    _ = w.reverse ++ (m.reverse.takeWhile p).reverse := by rw [List.reverse_append]
  have hmself : m.dropWhile p = m := by
    rw [hm]; exact dropWhile_dropWhile p l
  have h1 : w.reverse.dropWhile p = w.reverse := by
    apply dropWhile_of_append_self p w.reverse ((m.reverse.takeWhile p).reverse)
    rw [← hsplit]; exact hmself
  rw [h1, List.reverse_reverse, dropWhile_dropWhile]

theorem pyStrip_idem (s : String) : pyStrip (pyStrip s) = pyStrip s := by
  unfold pyStrip
  exact congrArg String.mk (stripChars_idem s.data)

/-! ### Lemmas about repository updates and the cascade loop -/

namespace SessionStateTaskRepository

theorem update_categories (task_id : Int) (u : TaskUpdate) (s : RepoState) :
    (update task_id u s).categories = s.categories := rfl

theorem update_next_id (task_id : Int) (u : TaskUpdate) (s : RepoState) :
    (update task_id u s).next_id = s.next_id := rfl

theorem mem_update_todos {task_id : Int} {u : TaskUpdate} {s : RepoState} {t : Task}
    (h : t ∈ (update task_id u s).todos) :
    ∃ v ∈ s.todos, t = if v.id = task_id then applyUpdate u v else v := by
  unfold update at h
  simp only [List.mem_map] at h
  obtain ⟨v, hv, hveq⟩ := h
  exact ⟨v, hv, hveq.symm⟩

end SessionStateTaskRepository

theorem cascade_categories (matchCat : String) (newVal : Option String)
    (tasks : List Task) (s : RepoState) :
    (cascade matchCat newVal tasks s).categories = s.categories := by
  induction tasks generalizing s with
  | nil => rfl
  | cons t rest ih =>
      unfold cascade
      rw [List.foldl_cons]
      by_cases h : t.category = some matchCat
      · rw [if_pos h]
        exact (ih _).trans rfl
      · rw [if_neg h]
        exact ih s

theorem cascade_next_id (matchCat : String) (newVal : Option String)
    (tasks : List Task) (s : RepoState) :
    (cascade matchCat newVal tasks s).next_id = s.next_id := by
  induction tasks generalizing s with
  | nil => rfl
  | cons t rest ih =>
      unfold cascade
      rw [List.foldl_cons]
      by_cases h : t.category = some matchCat
      · rw [if_pos h]
        exact (ih _).trans rfl
      · rw [if_neg h]
        exact ih s

theorem cascade_todos_length (matchCat : String) (newVal : Option String)
    (tasks : List Task) (s : RepoState) :
    (cascade matchCat newVal tasks s).todos.length = s.todos.length := by
  induction tasks generalizing s with
  | nil => rfl
  | cons t rest ih =>
      unfold cascade
      rw [List.foldl_cons]
      by_cases h : t.category = some matchCat
      · rw [if_pos h]
        refine (ih _).trans ?_
        simp [SessionStateTaskRepository.update]
      · rw [if_neg h]
        exact ih s

/-- Every category reference surviving the cascade is either the written
value or was already admissible. -/
theorem cascade_cat_bound (S : List String) (matchCat : String) (newVal : Option String)
    (tasks : List Task) (s : RepoState)
    (hnv : ∀ x, newVal = some x → x ∈ S)
    (h : ∀ t ∈ s.todos, ∀ c, t.category = some c → c ∈ S) :
    ∀ t ∈ (cascade matchCat newVal tasks s).todos, ∀ c, t.category = some c → c ∈ S := by
  induction tasks generalizing s with
  | nil => exact h
  | cons t rest ih =>
      unfold cascade
      rw [List.foldl_cons]
      by_cases hc : t.category = some matchCat
      · rw [if_pos hc]
        apply ih
        intro u hu c hcat
        obtain ⟨v, hv, hveq⟩ := SessionStateTaskRepository.mem_update_todos hu
        by_cases hid : v.id = t.id
        · rw [if_pos hid] at hveq
          subst hveq
          simp only [applyUpdate, Option.getD_some] at hcat
          exact hnv c hcat
        · rw [if_neg hid] at hveq
          rw [hveq] at hcat
          exact h v hv c hcat
      · rw [if_neg hc]
        exact ih s h

/-- After cascading over a snapshot that contains every current holder of
`matchCat`, no task carries `matchCat` any more (the written value being
different from `some matchCat`). -/
theorem cascade_clears (matchCat : String) (newVal : Option String)
    (tasks : List Task) (s : RepoState) (hne : newVal ≠ some matchCat)
    (h : ∀ u ∈ s.todos, u.category = some matchCat →
      ∃ t ∈ tasks, t.id = u.id ∧ t.category = some matchCat) :
    ∀ u ∈ (cascade matchCat newVal tasks s).todos, u.category ≠ some matchCat := by
  induction tasks generalizing s with
  | nil =>
      intro u hu hcat
      obtain ⟨t, ht, -⟩ := h u hu hcat
      exact absurd ht (List.not_mem_nil t)
  | cons t rest ih =>
      unfold cascade
      rw [List.foldl_cons]
      by_cases hc : t.category = some matchCat
      · rw [if_pos hc]
        apply ih
        intro u hu hcat
        obtain ⟨v, hv, hveq⟩ := SessionStateTaskRepository.mem_update_todos hu
        by_cases hid : v.id = t.id
        · rw [if_pos hid] at hveq
          subst hveq
          simp only [applyUpdate, Option.getD_some] at hcat
          exact absurd hcat.symm (Ne.symm hne)
        · rw [if_neg hid] at hveq
          rw [hveq] at hcat
          rw [hveq]
          obtain ⟨t2, ht2, hid2, hcat2⟩ := h v hv hcat
          rcases List.mem_cons.mp ht2 with h1 | h2
          · subst h1
            exact absurd hid2.symm hid
          · exact ⟨t2, h2, hid2, hcat2⟩
      · rw [if_neg hc]
        apply ih
        intro u hu hcat
        obtain ⟨t2, ht2, hid2, hcat2⟩ := h u hu hcat
        rcases List.mem_cons.mp ht2 with h1 | h2
        · subst h1
          exact absurd hcat2 hc
        · exact ⟨t2, h2, hid2, hcat2⟩

/-! ### Preservation of referential integrity by each service operation -/

theorem map_replace_self (l : List String) (x : String) :
    l.map (fun c => if c = x then x else c) = l := by
  induction l with
  | nil => rfl
  | cons a t ih =>
      by_cases h : a = x
      · simp [h, ih]
      · simp [h, ih]

theorem validate_category_mem {cat : Option String} {s : RepoState} {x : String}
    (h : TodoService.validate_category cat s = some x) : x ∈ s.categories := by
  unfold TodoService.validate_category at h
  cases cat with
  | none => exact absurd h (by simp)
  | some y =>
      by_cases he : pyStrip y = ""
      · simp [he] at h
      · simp only [he, if_neg, if_false] at h
        by_cases hm : pyStrip y ∈ s.categories
        · simp only [hm, if_pos, if_true] at h
          rw [Option.some_inj] at h
          exact h ▸ hm
        · simp [hm] at h

theorem catInv_set_categories {s : RepoState} {C : List String}
    (hsub : ∀ c ∈ s.categories, c ∈ C) (h : CatInv s) :
    CatInv { s with categories := C } := by
  intro t ht c hcat
  exact hsub c (h t ht c hcat)

theorem update_catInv {task_id : Int} {u : TaskUpdate} {s : RepoState}
    (hu : ∀ c, u.category = some (some c) → c ∈ s.categories) (h : CatInv s) :
    CatInv (SessionStateTaskRepository.update task_id u s) := by
  intro t ht c hcat
  obtain ⟨v, hv, hveq⟩ := SessionStateTaskRepository.mem_update_todos ht
  show c ∈ s.categories
  by_cases hid : v.id = task_id
  · rw [if_pos hid] at hveq
    rw [hveq] at hcat
    unfold applyUpdate at hcat
    simp only at hcat
    cases hc : u.category with
    | none =>
        rw [hc] at hcat
        simp only [Option.getD_none] at hcat
        exact h v hv c hcat
    | some w =>
        rw [hc] at hcat
        simp only [Option.getD_some] at hcat
        exact hu c (by rw [hc, hcat])
  · rw [if_neg hid] at hveq
    rw [hveq] at hcat
    exact h v hv c hcat

theorem add_task_catInv (title : String) (due : Option PyDate)
    (cat prio : Option String) (s : RepoState) (h : CatInv s) :
    CatInv (TodoService.add_task title due cat prio s).2 := by
  unfold TodoService.add_task
  cases hv : TodoService.validate_title title with
  | none => exact h
  | some vt =>
      intro t ht c hcat
      simp only [SessionStateTaskRepository.add, SessionStateTaskRepository.next_id] at ht
      rcases List.mem_append.mp ht with h1 | h2
      · exact h t h1 c hcat
      · rw [List.mem_singleton] at h2
        subst h2
        exact validate_category_mem hcat

theorem delete_task_catInv (task_id : Int) (s : RepoState) (h : CatInv s) :
    CatInv (TodoService.delete_task task_id s) := by
  intro t ht c hcat
  exact h t (List.mem_of_mem_filter ht) c hcat

theorem set_done_catInv (task_id : Int) (d : Bool) (s : RepoState) (h : CatInv s) :
    CatInv (TodoService.set_done task_id d s) :=
  update_catInv (by intro c hc; exact absurd hc (by simp)) h

theorem rename_task_catInv (task_id : Int) (nt : String) (s : RepoState) (h : CatInv s) :
    CatInv (TodoService.rename_task task_id nt s).2 := by
  unfold TodoService.rename_task
  cases TodoService.validate_title nt with
  | none => exact h
  | some vt => exact update_catInv (by intro c hc; exact absurd hc (by simp)) h

theorem set_due_date_catInv (task_id : Int) (d : Option PyDate) (s : RepoState)
    (h : CatInv s) : CatInv (TodoService.set_due_date task_id d s) :=
  update_catInv (by intro c hc; exact absurd hc (by simp)) h

theorem set_category_catInv (task_id : Int) (cat : Option String) (s : RepoState)
    (h : CatInv s) : CatInv (TodoService.set_category task_id cat s) := by
  apply update_catInv ?_ h
  intro c hc
  simp only [Option.some_inj] at hc
  exact validate_category_mem hc

theorem set_priority_catInv (task_id : Int) (p : Option String) (s : RepoState)
    (h : CatInv s) : CatInv (TodoService.set_priority task_id p s) :=
  update_catInv (by intro c hc; exact absurd hc (by simp)) h

theorem update_task_catInv (task_id : Int) (title : Option String) (due : Option PyDate)
    (cat prio : Option String) (udd up : Bool) (s : RepoState) (h : CatInv s) :
    CatInv (TodoService.update_task task_id title due cat prio udd up s).2 := by
  have hcat : ∀ c : String,
      (match cat with
        | none => none
        | some c0 => some (TodoService.validate_category (some c0) s)) =
          some (some c) → c ∈ s.categories := by
    intro c hc
    cases cat with
    | none => exact absurd hc (by simp)
    | some c0 =>
        simp only [Option.some_inj] at hc
        exact validate_category_mem hc
  have happ : ∀ u : TaskUpdate, (∀ c, u.category = some (some c) → c ∈ s.categories) →
      CatInv (if u.isEmpty then s else SessionStateTaskRepository.update task_id u s) := by
    intro u hu
    by_cases he : u.isEmpty = true
    · simp only [if_pos he]
      exact h
    · simp only [if_neg he]
      exact update_catInv hu h
  unfold TodoService.update_task
  cases title with
  | none => exact happ _ hcat
  | some t =>
      cases hvt : TodoService.validate_title t with
      | none =>
          simp only [hvt]
          exact h
      | some vt =>
          simp only [hvt]
          exact happ _ hcat

theorem add_category_catInv (name : String) (s : RepoState) (h : CatInv s) :
    CatInv (TodoService.add_category name s).2 := by
  unfold TodoService.add_category SessionStateTaskRepository.add_category
  by_cases h1 : pyStrip name = ""
  · simp only [h1, if_pos, if_true]
    exact h
  · simp only [h1, pyStrip_idem, if_neg, if_false]
    by_cases h2 : MAX_CATEGORIES ≤ s.categories.length
    · simp only [h2, if_pos, if_true]
      exact h
    · simp only [h2, if_neg, if_false]
      by_cases h3 : pyStrip name ∈ s.categories
      · simp only [h3, if_pos, if_true]
        exact h
      · simp only [h3, if_neg, if_false]
        exact catInv_set_categories (fun c hc => List.mem_append_left _ hc) h

/-! ### Case equations for the service category mutations -/

theorem service_rename_fail (old new : String) (s : RepoState)
    (h : pyStrip old = "" ∨ pyStrip new = "" ∨ pyStrip old ∉ s.categories ∨
      (pyStrip new ∈ s.categories ∧ pyStrip new ≠ pyStrip old)) :
    TodoService.rename_category old new s = (false, s) := by
  unfold TodoService.rename_category SessionStateTaskRepository.rename_category
  rcases h with h1 | h2 | h3 | h4
  · simp [h1]
  · simp [h2]
  · by_cases h1 : pyStrip old = ""
    · simp [h1]
    · by_cases h2 : pyStrip new = ""
      · simp [h2]
      · simp [h1, h2, pyStrip_idem, h3]
  · by_cases h1 : pyStrip old = ""
    · simp [h1]
    · by_cases h2 : pyStrip new = ""
      · simp [h2]
      · by_cases h3 : pyStrip old ∈ s.categories
        · simp [h1, h2, pyStrip_idem, h3, h4.1, h4.2]
        · simp [h1, h2, pyStrip_idem, h3]

theorem service_rename_succ_ne (old new : String) (s : RepoState)
    (h1 : pyStrip old ≠ "") (h2 : pyStrip new ≠ "") (h3 : pyStrip old ∈ s.categories)
    (h4 : pyStrip new ∉ s.categories) (hne : pyStrip old ≠ pyStrip new) :
    TodoService.rename_category old new s =
      (true, cascade (pyStrip old) (some (pyStrip new)) s.todos
        { s with categories :=
            s.categories.map (fun c => if c = pyStrip old then pyStrip new else c) }) := by
  unfold TodoService.rename_category SessionStateTaskRepository.rename_category
  simp [h1, h2, pyStrip_idem, h3, h4, hne, SessionStateTaskRepository.list_all, Ne.symm hne]

theorem service_rename_succ_eq (old new : String) (s : RepoState)
    (h1 : pyStrip old ≠ "") (h3 : pyStrip old ∈ s.categories)
    (heq : pyStrip new = pyStrip old) :
    TodoService.rename_category old new s = (true, s) := by
  unfold TodoService.rename_category SessionStateTaskRepository.rename_category
  simp [heq, h1, pyStrip_idem, h3, map_replace_self]

theorem service_delete_fail (name : String) (s : RepoState)
    (h : pyStrip name = "" ∨ pyStrip name ∉ s.categories) :
    TodoService.delete_category name s = (false, s) := by
  unfold TodoService.delete_category SessionStateTaskRepository.delete_category
  rcases h with h1 | h2
  · simp [h1]
  · by_cases h1 : pyStrip name = ""
    · simp [h1]
    · simp [h1, pyStrip_idem, h2]

theorem service_delete_succ (name : String) (s : RepoState)
    (h1 : pyStrip name ≠ "") (h2 : pyStrip name ∈ s.categories) :
    TodoService.delete_category name s =
      (true, cascade (pyStrip name) none s.todos
        { s with categories := s.categories.filter (fun c => c ≠ pyStrip name) }) := by
  unfold TodoService.delete_category SessionStateTaskRepository.delete_category
  simp [h1, pyStrip_idem, h2, SessionStateTaskRepository.list_all]

theorem rename_category_catInv (old new : String) (s : RepoState) (h : CatInv s) :
    CatInv (TodoService.rename_category old new s).2 := by
  by_cases hA : pyStrip old = "" ∨ pyStrip new = "" ∨ pyStrip old ∉ s.categories ∨
      (pyStrip new ∈ s.categories ∧ pyStrip new ≠ pyStrip old)
  · rw [service_rename_fail old new s hA]
    exact h
  · push_neg at hA
    obtain ⟨h1, h2, h3, h4⟩ := hA
    by_cases hne : pyStrip old = pyStrip new
    · rw [service_rename_succ_eq old new s h1 h3 hne.symm]
      exact h
    · have h4n : pyStrip new ∉ s.categories := by
        intro hmem
        exact hne ((h4 hmem).symm)
      rw [service_rename_succ_ne old new s h1 h2 h3 h4n hne]
      intro t ht c hcat
      have hb := cascade_cat_bound
        (pyStrip old ::
          s.categories.map (fun c => if c = pyStrip old then pyStrip new else c))
        (pyStrip old) (some (pyStrip new)) s.todos
        { s with categories :=
          s.categories.map (fun c => if c = pyStrip old then pyStrip new else c) }
        (fun x hx => by
          rw [Option.some_inj] at hx
          subst hx
          exact List.mem_cons_of_mem _
            (List.mem_map.mpr ⟨pyStrip old, h3, by simp⟩))
        (fun t2 ht2 c2 hc2 => by
          have hc2m := h t2 ht2 c2 hc2
          by_cases he : c2 = pyStrip old
          · exact he ▸ List.mem_cons_self _ _
          · exact List.mem_cons_of_mem _ (List.mem_map.mpr ⟨c2, hc2m, by simp [he]⟩))
      have hclr := cascade_clears (pyStrip old) (some (pyStrip new)) s.todos
        { s with categories :=
          s.categories.map (fun c => if c = pyStrip old then pyStrip new else c) }
        (by
          intro hx
          rw [Option.some_inj] at hx
          exact hne hx.symm)
        (fun u hu hc => ⟨u, hu, rfl, hc⟩)
      have hcS := hb t ht c hcat
      have hco : c ≠ pyStrip old := by
        intro he
        exact hclr t ht (he ▸ hcat)
      rw [cascade_categories]
      rcases List.mem_cons.mp hcS with he | hm
      · exact absurd he hco
      · exact hm

theorem delete_category_catInv (name : String) (s : RepoState) (h : CatInv s) :
    CatInv (TodoService.delete_category name s).2 := by
  by_cases hA : pyStrip name = "" ∨ pyStrip name ∉ s.categories
  · rw [service_delete_fail name s hA]
    exact h
  · push_neg at hA
    obtain ⟨h1, h2⟩ := hA
    rw [service_delete_succ name s h1 h2]
    intro t ht c hcat
    have hb := cascade_cat_bound
      (pyStrip name :: s.categories.filter (fun c => c ≠ pyStrip name))
      (pyStrip name) none s.todos
      { s with categories := s.categories.filter (fun c => c ≠ pyStrip name) }
      (fun x hx => absurd hx (by simp))
      (fun t2 ht2 c2 hc2 => by
        have hc2m := h t2 ht2 c2 hc2
        by_cases he : c2 = pyStrip name
        · exact he ▸ List.mem_cons_self _ _
        · exact List.mem_cons_of_mem _ (List.mem_filter.mpr ⟨hc2m, by simp [he]⟩))
    have hclr := cascade_clears (pyStrip name) none s.todos
      { s with categories := s.categories.filter (fun c => c ≠ pyStrip name) }
      (by simp)
      (fun u hu hc => ⟨u, hu, rfl, hc⟩)
    have hcS := hb t ht c hcat
    have hco : c ≠ pyStrip name := by
      intro he
      exact hclr t ht (he ▸ hcat)
    rw [cascade_categories]
    rcases List.mem_cons.mp hcS with he | hm
    · exact absurd he hco
    · exact hm

/-- Every service-reachable state satisfies referential integrity. -/
theorem reachable_catInv {s : RepoState} (h : Reachable s) : CatInv s := by
  induction h with
  | init => intro t ht c hcat; exact absurd ht (List.not_mem_nil t)
  | add_task title due category priority s _ ih => exact add_task_catInv _ _ _ _ _ ih
  | delete_task task_id s _ ih => exact delete_task_catInv _ _ ih
  | set_done task_id d s _ ih => exact set_done_catInv _ _ _ ih
  | rename_task task_id t s _ ih => exact rename_task_catInv _ _ _ ih
  | set_due_date task_id d s _ ih => exact set_due_date_catInv _ _ _ ih
  | set_category task_id c s _ ih => exact set_category_catInv _ _ _ ih
  | set_priority task_id p s _ ih => exact set_priority_catInv _ _ _ ih
  | update_task task_id title due category priority udd up s _ ih =>
      exact update_task_catInv _ _ _ _ _ _ _ _ ih
  | add_category name s _ ih => exact add_category_catInv _ _ ih
  | rename_category old new s _ ih => exact rename_category_catInv _ _ _ ih
  | delete_category name s _ ih => exact delete_category_catInv _ _ ih

/-! ### Stored category names are always stripped and non-empty -/

theorem catsWF_of_eq {s s2 : RepoState} (h : CatsWF s) (he : s2.categories = s.categories) :
    CatsWF s2 := by
  intro c hc
  exact h c (he ▸ hc)

theorem add_task_categories (title : String) (due : Option PyDate)
    (cat prio : Option String) (s : RepoState) :
    (TodoService.add_task title due cat prio s).2.categories = s.categories := by
  unfold TodoService.add_task
  cases TodoService.validate_title title <;> rfl

theorem rename_task_categories (task_id : Int) (nt : String) (s : RepoState) :
    (TodoService.rename_task task_id nt s).2.categories = s.categories := by
  unfold TodoService.rename_task
  cases TodoService.validate_title nt <;> rfl

theorem update_task_categories (task_id : Int) (title : Option String) (due : Option PyDate)
    (cat prio : Option String) (udd up : Bool) (s : RepoState) :
    (TodoService.update_task task_id title due cat prio udd up s).2.categories =
      s.categories := by
  have happ : ∀ u : TaskUpdate,
      (if u.isEmpty then s else SessionStateTaskRepository.update task_id u s).categories =
        s.categories := by
    intro u
    by_cases he : u.isEmpty = true
    · rw [if_pos he]
    · rw [if_neg he]
      rfl
  unfold TodoService.update_task
  cases title with
  | none => exact happ _
  | some t =>
      cases hvt : TodoService.validate_title t with
      | none =>
          simp only [hvt]
      | some vt =>
          simp only [hvt]
          exact happ _

theorem add_category_catsWF (name : String) (s : RepoState) (h : CatsWF s) :
    CatsWF (TodoService.add_category name s).2 := by
  unfold TodoService.add_category SessionStateTaskRepository.add_category
  by_cases h1 : pyStrip name = ""
  · simp [h1]
    exact h
  · by_cases h2 : MAX_CATEGORIES ≤ s.categories.length
    · simp [h1, h2, pyStrip_idem]
      exact h
    · by_cases h3 : pyStrip name ∈ s.categories
      · simp [h1, h2, h3, pyStrip_idem]
        exact h
      · simp [h1, h2, h3, pyStrip_idem]
        intro c hc
        rcases List.mem_append.mp hc with hm | hm
        · exact h c hm
        · rw [List.mem_singleton] at hm
          subst hm
          exact ⟨pyStrip_idem name, h1⟩

theorem rename_category_catsWF (old new : String) (s : RepoState) (h : CatsWF s) :
    CatsWF (TodoService.rename_category old new s).2 := by
  by_cases hA : pyStrip old = "" ∨ pyStrip new = "" ∨ pyStrip old ∉ s.categories ∨
      (pyStrip new ∈ s.categories ∧ pyStrip new ≠ pyStrip old)
  · rw [service_rename_fail old new s hA]
    exact h
  · push_neg at hA
    obtain ⟨h1, h2, h3, h4⟩ := hA
    by_cases hne : pyStrip old = pyStrip new
    · rw [service_rename_succ_eq old new s h1 h3 hne.symm]
      exact h
    · have h4n : pyStrip new ∉ s.categories := by
        intro hmem
        exact hne ((h4 hmem).symm)
      rw [service_rename_succ_ne old new s h1 h2 h3 h4n hne]
      intro c hc
      rw [cascade_categories] at hc
      rcases List.mem_map.mp hc with ⟨c0, hc0, hceq⟩
      by_cases he : c0 = pyStrip old
      · rw [if_pos he] at hceq
        subst hceq
        exact ⟨pyStrip_idem new, h2⟩
      · rw [if_neg he] at hceq
        subst hceq
        exact h c0 hc0

theorem delete_category_catsWF (name : String) (s : RepoState) (h : CatsWF s) :
    CatsWF (TodoService.delete_category name s).2 := by
  by_cases hA : pyStrip name = "" ∨ pyStrip name ∉ s.categories
  · rw [service_delete_fail name s hA]
    exact h
  · push_neg at hA
    obtain ⟨h1, h2⟩ := hA
    rw [service_delete_succ name s h1 h2]
    intro c hc
    rw [cascade_categories] at hc
    exact h c (List.mem_filter.mp hc).1

/-- Every service-reachable state stores only stripped, non-empty
category names. -/
theorem reachable_catsWF {s : RepoState} (h : Reachable s) : CatsWF s := by
  induction h with
  | init => intro c hc; exact absurd hc (List.not_mem_nil c)
  | add_task title due category priority s _ ih =>
      exact catsWF_of_eq ih (add_task_categories _ _ _ _ _)
  | delete_task task_id s _ ih => exact catsWF_of_eq ih rfl
  | set_done task_id d s _ ih => exact catsWF_of_eq ih rfl
  | rename_task task_id t s _ ih =>
      exact catsWF_of_eq ih (rename_task_categories _ _ _)
  | set_due_date task_id d s _ ih => exact catsWF_of_eq ih rfl
  | set_category task_id c s _ ih => exact catsWF_of_eq ih rfl
  | set_priority task_id p s _ ih => exact catsWF_of_eq ih rfl
  | update_task task_id title due category priority udd up s _ ih =>
      exact catsWF_of_eq ih (update_task_categories _ _ _ _ _ _ _ _)
  | add_category name s _ ih => exact add_category_catsWF _ _ ih
  | rename_category old new s _ ih => exact rename_category_catsWF _ _ _ ih
  | delete_category name s _ ih => exact delete_category_catsWF _ _ ih

/-! ### The claims -/

/-- C1: on every service-reachable state, the service-mediated category
mutations preserve referential integrity — after `rename_category` or
`delete_category` returns, no task references a category that is absent
from the store; moreover a successful rename to a different name leaves no
task carrying the old name (they were rewritten to the new one), and a
successful delete leaves no task carrying the deleted name (they were set
to `None`). -/
theorem category_referential_integrity (s : RepoState) (h : Reachable s)
    (old new name : String) :
    CatInv (TodoService.rename_category old new s).2 ∧
    CatInv (TodoService.delete_category name s).2 ∧
    ((TodoService.rename_category old new s).1 = true → pyStrip old ≠ pyStrip new →
      ∀ u ∈ (TodoService.rename_category old new s).2.todos,
        u.category ≠ some (pyStrip old)) ∧
    ((TodoService.delete_category name s).1 = true →
      ∀ u ∈ (TodoService.delete_category name s).2.todos,
        u.category ≠ some (pyStrip name)) := by
  have hc := reachable_catInv h
  refine ⟨rename_category_catInv _ _ _ hc, delete_category_catInv _ _ hc, ?_, ?_⟩
  · intro hsucc hne
    by_cases hA : pyStrip old = "" ∨ pyStrip new = "" ∨ pyStrip old ∉ s.categories ∨
        (pyStrip new ∈ s.categories ∧ pyStrip new ≠ pyStrip old)
    · rw [service_rename_fail old new s hA] at hsucc
      exact absurd hsucc (by simp)
    · push_neg at hA
      obtain ⟨h1, h2, h3, h4⟩ := hA
      have h4n : pyStrip new ∉ s.categories := by
        intro hmem
        exact hne ((h4 hmem).symm)
      rw [service_rename_succ_ne old new s h1 h2 h3 h4n hne]
      exact cascade_clears _ _ s.todos _
        (by
          intro hx
          rw [Option.some_inj] at hx
          exact hne hx.symm)
        (fun u hu hcat => ⟨u, hu, rfl, hcat⟩)
  · intro hsucc
    by_cases hA : pyStrip name = "" ∨ pyStrip name ∉ s.categories
    · rw [service_delete_fail name s hA] at hsucc
      exact absurd hsucc (by simp)
    · push_neg at hA
      obtain ⟨h1, h2⟩ := hA
      rw [service_delete_succ name s h1 h2]
      exact cascade_clears _ _ s.todos _ (by simp) (fun u hu hcat => ⟨u, hu, rfl, hcat⟩)

/-- C1 witness: the theorem instantiated at the initial state. -/
theorem category_referential_integrity_witness :
    CatInv (TodoService.rename_category "Alt" "Neu" initState).2 ∧
    CatInv (TodoService.delete_category "Sport" initState).2 ∧
    ((TodoService.rename_category "Alt" "Neu" initState).1 = true →
      pyStrip "Alt" ≠ pyStrip "Neu" →
      ∀ u ∈ (TodoService.rename_category "Alt" "Neu" initState).2.todos,
        u.category ≠ some (pyStrip "Alt")) ∧
    ((TodoService.delete_category "Sport" initState).1 = true →
      ∀ u ∈ (TodoService.delete_category "Sport" initState).2.todos,
        u.category ≠ some (pyStrip "Sport")) :=
  category_referential_integrity initState Reachable.init "Alt" "Neu" "Sport"

/-- C10: renaming an existing category to itself succeeds and changes
nothing: on a reachable state, `rename_category x x` returns `True` and
returns the state unchanged (the duplicate-name failure only fires when
the new name is a *different* existing category). -/
theorem rename_category_self_noop (s : RepoState) (x : String) (h : Reachable s)
    (hx : x ∈ s.categories) :
    TodoService.rename_category x x s = (true, s) := by
  obtain ⟨hstrip, hne⟩ := reachable_catsWF h x hx
  apply service_rename_succ_eq x x s
  · rw [hstrip]
    exact hne
  · rw [hstrip]
    exact hx
  · rfl

/-- C10 witness: after adding the category `Arbeit`, renaming it to itself
returns `True` and the state is untouched. -/
theorem rename_category_self_noop_witness :
    TodoService.rename_category "Arbeit" "Arbeit"
        (TodoService.add_category "Arbeit" initState).2 =
      (true, (TodoService.add_category "Arbeit" initState).2) :=
  rename_category_self_noop _ _
    (Reachable.add_category "Arbeit" initState Reachable.init) (by decide)

/-- C3: a title that is empty after stripping makes `add_task` return
`False` with the state — task list and id counter — fully unchanged. -/
theorem add_task_rejects_blank_title (title : String) (due : Option PyDate)
    (category priority : Option String) (s : RepoState) (h : pyStrip title = "") :
    TodoService.add_task title due category priority s = (false, s) := by
  unfold TodoService.add_task TodoService.validate_title
  simp [h]

/-- C3 witness: a whitespace-only title is rejected without persisting
anything. -/
theorem add_task_rejects_blank_title_witness :
    TodoService.add_task "   " none none none initState = (false, initState) :=
  add_task_rejects_blank_title "   " none none none initState (by decide)

/-- C7: `add_category` fails (returning `False`, state unchanged) when the
stripped name is empty, when the store already holds `MAX_CATEGORIES`
names, or when the name is already present; otherwise it appends the
stripped name and returns `True`. -/
theorem add_category_spec (name : String) (s : RepoState) :
    ((pyStrip name = "" ∨ MAX_CATEGORIES ≤ s.categories.length ∨
        pyStrip name ∈ s.categories) →
      SessionStateTaskRepository.add_category name s = (false, s)) ∧
    (pyStrip name ≠ "" → s.categories.length < MAX_CATEGORIES →
      pyStrip name ∉ s.categories →
      SessionStateTaskRepository.add_category name s =
        (true, { s with categories := s.categories ++ [pyStrip name] })) := by
  constructor
  · intro hfail
    unfold SessionStateTaskRepository.add_category
    rcases hfail with h1 | h2 | h3
    · simp [h1]
    · by_cases h1 : pyStrip name = ""
      · simp [h1]
      · simp [h1, h2]
    · by_cases h1 : pyStrip name = ""
      · simp [h1]
      · by_cases h2 : MAX_CATEGORIES ≤ s.categories.length
        · simp [h1, h2]
        · simp [h1, h2, h3]
  · intro h1 h2 h3
    unfold SessionStateTaskRepository.add_category
    simp [h1, Nat.not_le.mpr h2, h3]

/-- The five-category store used to witness the category cap. -/
def fiveCats : RepoState :=
  ⟨[], 1, ["Arbeit", "Haushalt", "Sport", "Einkauf", "Sonstiges"]⟩

/-- C7 witness: adding a sixth category to a store of five fails and
exactly the five categories remain. -/
theorem add_category_spec_witness :
    SessionStateTaskRepository.add_category "Garten" fiveCats = (false, fiveCats) ∧
    fiveCats.categories.length = 5 :=
  ⟨(add_category_spec "Garten" fiveCats).1 (Or.inr (Or.inl (by decide))), by decide⟩

theorem nextIdSeq_fst (N : Nat) (s : RepoState) :
    (nextIdSeq N s).1 = (List.range N).map (fun k : Nat => s.next_id + (k : Int)) := by
  induction N generalizing s with
  | zero => rfl
  | succ n ih =>
      show s.next_id :: (nextIdSeq n { s with next_id := s.next_id + 1 }).1 = _
      rw [List.range_succ_eq_map, List.map_cons, List.map_map, ih]
      refine congrArg₂ List.cons (by simp) ?_
      refine List.map_congr_left (fun a ha => ?_)
      simp only [Function.comp_apply]
      push_cast
      ring

/-- C8: `N` consecutive `next_id()` calls return the arithmetic run
starting at the stored counter, hence a strictly increasing sequence with
no repeats; each call returns the current counter and bumps it by one. -/
theorem next_id_strictly_increasing (N : Nat) (s : RepoState) :
    (nextIdSeq N s).1.Pairwise (· < ·) ∧
    (nextIdSeq N s).1 = (List.range N).map (fun k : Nat => s.next_id + (k : Int)) ∧
    SessionStateTaskRepository.next_id s = (s.next_id, { s with next_id := s.next_id + 1 }) := by
  refine ⟨?_, nextIdSeq_fst N s, rfl⟩
  rw [nextIdSeq_fst]
  exact List.Pairwise.map _ (fun a b hab => by omega) (List.pairwise_lt_range N)

/-- C8 witness: three consecutive draws from the initial state return
1, 2, 3. -/
theorem next_id_strictly_increasing_witness :
    (nextIdSeq 3 initState).1.Pairwise (· < ·) ∧
    (nextIdSeq 3 initState).1 =
      (List.range 3).map (fun k : Nat => initState.next_id + (k : Int)) ∧
    SessionStateTaskRepository.next_id initState =
      (initState.next_id, { initState with next_id := initState.next_id + 1 }) :=
  next_id_strictly_increasing 3 initState

theorem validate_priority_fixed {r : String} (h : r ∈ PRIORITIES) :
    TodoService.validate_priority (some r) = some r := by
  simp only [PRIORITIES, List.mem_cons, List.not_mem_nil, or_false] at h
  rcases h with h | h | h <;> subst h <;> decide

/-- C9: priority normalization — `None` stays `None`; a non-null string is
stripped and title-cased (`"hoch"` becomes `"Hoch"`) and kept iff the
result is one of the three enum values, else mapped to `None`; the
normalization is idempotent and already-normalized enum values pass
through unchanged; adding a task with priority `"hoch"` stores `"Hoch"`. -/
theorem priority_normalization (p : String) (s : RepoState) :
    TodoService.validate_priority none = none ∧
    TodoService.validate_priority (some "hoch") = some "Hoch" ∧
    (p ∈ PRIORITIES → TodoService.validate_priority (some p) = some p) ∧
    (∀ q : Option String,
      TodoService.validate_priority (TodoService.validate_priority q) =
        TodoService.validate_priority q) ∧
    (TodoService.validate_priority (some p) = none ∨
      ∃ r, TodoService.validate_priority (some p) = some r ∧
        r = pyCapitalize (pyStrip p) ∧ r ∈ PRIORITIES) ∧
    TodoService.add_task "x" none none (some "hoch") s =
      (true, { s with
        todos := s.todos ++ [⟨s.next_id, "x", false, none, none, some "Hoch"⟩],
        next_id := s.next_id + 1 }) := by
  refine ⟨rfl, by decide, validate_priority_fixed, ?_, ?_, rfl⟩
  · intro q
    cases q with
    | none => rfl
    | some x =>
        cases hv : TodoService.validate_priority (some x) with
        | none => rfl
        | some r =>
            unfold TodoService.validate_priority at hv
            have hv2 : (if pyCapitalize (pyStrip x) ∈ PRIORITIES then
                some (pyCapitalize (pyStrip x)) else none) = some r := hv
            by_cases hm : pyCapitalize (pyStrip x) ∈ PRIORITIES
            · rw [if_pos hm, Option.some_inj] at hv2
              subst hv2
              exact validate_priority_fixed hm
            · rw [if_neg hm] at hv2
              exact absurd hv2 (by simp)
  · by_cases hm : pyCapitalize (pyStrip p) ∈ PRIORITIES
    · refine Or.inr ⟨pyCapitalize (pyStrip p), ?_, rfl, hm⟩
      show (if pyCapitalize (pyStrip p) ∈ PRIORITIES then
        some (pyCapitalize (pyStrip p)) else none) = some (pyCapitalize (pyStrip p))
      rw [if_pos hm]
    · refine Or.inl ?_
      show (if pyCapitalize (pyStrip p) ∈ PRIORITIES then
        some (pyCapitalize (pyStrip p)) else none) = none
      rw [if_neg hm]

/-- C9 witness: the theorem applied to the already-normalized value
`"Mittel"` on the initial state. -/
theorem priority_normalization_witness :
    TodoService.validate_priority (some "Mittel") = some "Mittel" :=
  (priority_normalization "Mittel" initState).2.2.1 (by decide)

/-- C5: the urgency table is total — urgencies 1..5 map to
Niedrig/Niedrig/Mittel/Hoch/Hoch and every integer outside 1..5 maps to
the default `"Mittel"`. -/
theorem urgency_conversion_total (u : Int) :
    TaskAdapter.convert_urgency 1 = "Niedrig" ∧
    TaskAdapter.convert_urgency 2 = "Niedrig" ∧
    TaskAdapter.convert_urgency 3 = "Mittel" ∧
    TaskAdapter.convert_urgency 4 = "Hoch" ∧
    TaskAdapter.convert_urgency 5 = "Hoch" ∧
    (u < 1 ∨ 5 < u → TaskAdapter.convert_urgency u = "Mittel") := by
  refine ⟨rfl, rfl, rfl, rfl, rfl, ?_⟩
  intro h
  unfold TaskAdapter.convert_urgency
  have h1 : u ≠ 1 := by omega
  have h2 : u ≠ 2 := by omega
  have h3 : u ≠ 3 := by omega
  have h4 : u ≠ 4 := by omega
  have h5 : u ≠ 5 := by omega
  rw [if_neg h1, if_neg h2, if_neg h3, if_neg h4, if_neg h5]

/-- C5 witness: urgency 99 falls back to `"Mittel"`. -/
theorem urgency_conversion_total_witness :
    TaskAdapter.convert_urgency 99 = "Mittel" :=
  (urgency_conversion_total 99).2.2.2.2.2 (Or.inr (by decide))

/-- C4 counterexample: the item id `"123"` contains no `'-'`, yet
`_convert_id` does *not* take the hash fallback the claim prescribes for
dash-free ids: `"123".split("-")[-1]` is `"123"` itself, which parses, so
the result is `123 + offset = 10123` — not `hash mod 100000 + offset`
(here, with the hash model mapping every string to 0, that would be
`10000`). -/
theorem convert_id_no_dash_counterexample :
    ("123".data.elem '-') = false ∧
    TaskAdapter.convert_id (fun _ => 0) 10000 "123" = 123 + 10000 ∧
    TaskAdapter.convert_id (fun _ => 0) 10000 "123" ≠
      ((((fun (_ : String) => (0 : Nat)) "123") % 100000 : Nat) : Int) + 10000 := by
  refine ⟨rfl, by decide, by decide⟩

/-- C4 (amended): `_convert_id` parses the substring after the last `'-'`
— the *whole* id when it contains no `'-'` — and returns that integer
plus the offset; only when that substring fails to parse as an integer
does it fall back to `abs(hash(full id)) mod 100000` plus the offset.
`adapt` of an item with id `"EXT-1000"` yields internal id 11000 under
the default offset 10000. -/
theorem convert_id_spec (hashAbs : String → Nat) (off : Int) (ext : String) :
    (∀ n : Int, pyIntParse (lastDashSuffix ext) = some n →
      TaskAdapter.convert_id hashAbs off ext = n + off) ∧
    (pyIntParse (lastDashSuffix ext) = none →
      TaskAdapter.convert_id hashAbs off ext = ((hashAbs ext % 100000 : Nat) : Int) + off) ∧
    (TaskAdapter.adapt hashAbs 10000
        ⟨"EXT-1000", "Milch kaufen", false, none, 3, none⟩).id = 11000 := by
  refine ⟨?_, ?_, rfl⟩
  · intro n hn
    unfold TaskAdapter.convert_id
    rw [hn]
  · intro hn
    unfold TaskAdapter.convert_id
    rw [hn]

/-- C4 witness: the parse branch at `"EXT-1000"` with offset 10000. -/
theorem convert_id_spec_witness :
    TaskAdapter.convert_id (fun _ => 0) 10000 "EXT-1000" = 1000 + 10000 :=
  (convert_id_spec (fun _ => 0) 10000 "EXT-1000").1 1000 (by decide)

/-- C6: the adapter round trip is lossy — a task does not survive
`adapt ∘ to_external` (the generated external id `EXT-<id>` re-enters
with the offset added), and the external urgencies 1 and 5 do not survive
External → internal → External (they come back as 2 and 4: five urgency
buckets map onto three priorities). -/
theorem adapter_round_trip_lossy (hashAbs : String → Nat) :
    (∃ t : Task,
      TaskAdapter.adapt hashAbs 10000 (BidirectionalTaskAdapter.to_external t none) ≠ t) ∧
    (BidirectionalTaskAdapter.to_external
        (TaskAdapter.adapt hashAbs 10000 ⟨"EXT-7", "a", false, none, 1, none⟩)
        none).urgency ≠ (1 : Int) ∧
    (BidirectionalTaskAdapter.to_external
        (TaskAdapter.adapt hashAbs 10000 ⟨"EXT-7", "a", false, none, 5, none⟩)
        none).urgency ≠ (5 : Int) := by
  refine ⟨⟨⟨1, "a", false, none, none, some "Mittel"⟩, ?_⟩, ?_, ?_⟩
  · intro h
    have he : TaskAdapter.adapt hashAbs 10000
        (BidirectionalTaskAdapter.to_external
          ⟨1, "a", false, none, none, some "Mittel"⟩ none) =
        ⟨10001, "a", false, none, none, some "Mittel"⟩ := rfl
    rw [he] at h
    have hid := congrArg Task.id h
    exact absurd hid (by decide)
  · have he : (BidirectionalTaskAdapter.to_external
        (TaskAdapter.adapt hashAbs 10000 ⟨"EXT-7", "a", false, none, 1, none⟩)
        none).urgency = 2 := rfl
    rw [he]
    decide
  · have he : (BidirectionalTaskAdapter.to_external
        (TaskAdapter.adapt hashAbs 10000 ⟨"EXT-7", "a", false, none, 5, none⟩)
        none).urgency = 4 := rfl
    rw [he]
    decide

/-- C6 witness: the theorem instantiated at a concrete hash model. -/
theorem adapter_round_trip_lossy_witness :
    (∃ t : Task,
      TaskAdapter.adapt (fun _ => 0) 10000
        (BidirectionalTaskAdapter.to_external t none) ≠ t) ∧
    (BidirectionalTaskAdapter.to_external
        (TaskAdapter.adapt (fun _ => 0) 10000 ⟨"EXT-7", "a", false, none, 1, none⟩)
        none).urgency ≠ (1 : Int) ∧
    (BidirectionalTaskAdapter.to_external
        (TaskAdapter.adapt (fun _ => 0) 10000 ⟨"EXT-7", "a", false, none, 5, none⟩)
        none).urgency ≠ (5 : Int) :=
  adapter_round_trip_lossy (fun _ => 0)

/-- The one-task, one-category state used to refute the repository-level
cascade claim. -/
def renameCexState : RepoState :=
  ⟨[⟨1, "Einkauf erledigen", false, none, some "A", none⟩], 2, ["A"]⟩

/-- C2 counterexample: the repository operation `rename_category "A" "B"`
succeeds and rewrites the category store, but the task that carried
category `"A"` still carries `"A"` afterwards — the task-rewriting
cascade does *not* happen at the repository level. -/
theorem repo_rename_no_cascade_counterexample :
    (SessionStateTaskRepository.rename_category "A" "B" renameCexState).1 = true ∧
    (SessionStateTaskRepository.rename_category "A" "B" renameCexState).2.categories =
      ["B"] ∧
    (SessionStateTaskRepository.rename_category "A" "B" renameCexState).2.todos.map
      (fun t => t.category) = [some "A"] ∧
    (some "A" : Option String) ≠ some "B" := by
  refine ⟨rfl, by decide, by decide, by decide⟩

/-- C2 (amended): on success — both names non-empty after stripping, the
old name present, the new name not present as a different category — the
repository `rename_category` replaces `old` by `new` in the category
store only; the task list is left unchanged (the task-rewriting cascade
is performed by `TodoService.rename_category`, not by the repository). -/
theorem repo_rename_category_spec (old new : String) (s : RepoState)
    (h1 : pyStrip old ≠ "") (h2 : pyStrip new ≠ "") (h3 : pyStrip old ∈ s.categories)
    (h4 : pyStrip new ∈ s.categories → pyStrip new = pyStrip old) :
    SessionStateTaskRepository.rename_category old new s =
      (true, { s with categories :=
        s.categories.map (fun c => if c = pyStrip old then pyStrip new else c) }) ∧
    (SessionStateTaskRepository.rename_category old new s).2.todos = s.todos := by
  have he : ¬(pyStrip old = "" ∨ pyStrip new = "") := by
    push_neg
    exact ⟨h1, h2⟩
  have h4n : ¬(pyStrip new ∈ s.categories ∧ pyStrip new ≠ pyStrip old) := by
    rintro ⟨hm, hne⟩
    exact hne (h4 hm)
  have hmain : SessionStateTaskRepository.rename_category old new s =
      (true, { s with categories :=
        s.categories.map (fun c => if c = pyStrip old then pyStrip new else c) }) := by
    unfold SessionStateTaskRepository.rename_category
    rw [if_neg he, if_neg (not_not_intro h3), if_neg h4n]
  exact ⟨hmain, by rw [hmain]⟩

/-- C2 witness: a concrete successful repository rename. -/
theorem repo_rename_category_spec_witness :
    SessionStateTaskRepository.rename_category "A" "B" (⟨[], 1, ["A"]⟩ : RepoState) =
      (true, (⟨[], 1, ["B"]⟩ : RepoState)) :=
  ((repo_rename_category_spec "A" "B" ⟨[], 1, ["A"]⟩ (by decide) (by decide)
    (by decide) (by decide)).1).trans (by decide)

end TodoApp
